import Mathlib

/-!
obs-websocket `Config.cpp`: salted secret and challenge-response check.

A shallow embedding of `Config::GenerateSalt`, `Config::GenerateSecret`,
`Config::SetPassword` and `Config::CheckAuth`, with the heap blocks they
allocate, the stores they perform and the library routines they call
(`strlen`, `memcpy`, `strcmp`, `bzalloc`, SHA-256, base64, the CTR-DRBG).

Conventions.
* A byte is a natural number; a `const char *` value is the list of bytes
  it points at, and the C string it denotes is `cstr` of that list (the
  bytes before the first NUL).
* A heap block is a list of bytes whose length is the allocated size.  A
  store at an index inside the block replaces the byte.  A store at or past
  the end of the block lands outside the allocation: the block keeps its
  bytes and the store is reported as out of range.  Every operation returns,
  next to its result, the flag `inBounds`: `true` when every store it
  performed was inside its block.
* In the program a store past the end of a block writes into the heap next
  to the block.  The blocks themselves are all that is modelled, not the
  heap around them: with `inBounds = false` the values are those of a call
  that returns, and nothing is said about the heap the call leaves behind
  or about the calls that come after it on that heap.
-/

namespace ObsWebsocket

/-! ## C strings -/

/-- The C string held in a byte sequence: the bytes before the first NUL. -/
def cstr (m : List Nat) : List Nat :=
  m.takeWhile (fun b => b != 0)

/-- A byte sequence without a NUL byte: the contents of a C string. -/
def NulFree (s : List Nat) : Prop :=
  ∀ b ∈ s, b ≠ 0

instance (s : List Nat) : Decidable (NulFree s) := by
  unfold NulFree
  infer_instance

/-- C `strlen`: the number of bytes before the first NUL. -/
def strlen (s : List Nat) : Nat :=
  (cstr s).length

/-- C `strcmp`: walks both strings until they differ or both end; the end of
a list stands for the terminating NUL. The result is the difference of the
first two bytes that differ, `0` when the strings are equal. -/
def strcmp : List Nat → List Nat → Int
  | [], [] => 0
  | [], b :: _ => 0 - (b : Int)
  | a :: _, [] => (a : Int)
  | a :: as, b :: bs =>
    if a ≠ b then (a : Int) - (b : Int)
    else if a = 0 then 0
    else strcmp as bs

/-! ## Heap blocks -/

/-- A heap block: its bytes; the allocated size is the number of bytes. -/
structure Buf where
  bytes : List Nat
deriving DecidableEq, Repr

/-- The allocated size of a block. -/
def Buf.size (b : Buf) : Nat :=
  b.bytes.length

/-- Library routine `bzalloc` (libobs): a block of `size` zero bytes. -/
def bzalloc (size : Nat) : Buf :=
  ⟨List.replicate size 0⟩

/-- The store `p[i] = v`. Inside the block the byte is replaced and the
store is in range (`true`); at or past the end the block is left as it is
and the store is out of range (`false`). In the program such a store
writes the byte into the heap past the block; the heap around the block is
not modelled, so `false` marks a call after which the heap is damaged. -/
def Buf.store (b : Buf) (i v : Nat) : Buf × Bool :=
  if i < b.size then (⟨b.bytes.set i v⟩, true) else (b, false)

/-- Stores the bytes `src` at `dst[off], dst[off+1], ...`, one store per
byte; the flag tells whether all of them were in range. -/
def storeBytes (dst : Buf) (off : Nat) : List Nat → Buf × Bool
  | [] => (dst, true)
  | x :: xs =>
    let r := dst.store off x
    let r2 := storeBytes r.1 (off + 1) xs
    (r2.1, r.2 && r2.2)

/-- C `memcpy(dst + off, src, n)`: copies the first `n` bytes of `src`. -/
def memcpy (dst : Buf) (off : Nat) (src : List Nat) (n : Nat) : Buf × Bool :=
  storeBytes dst off (src.take n)

/-! ## SHA-256 (FIPS 180-4), the function computed by `mbedtls_sha256` -/

/-- Addition of 32-bit words. -/
def add32 (x y : Nat) : Nat :=
  (x + y) % 2 ^ 32

/-- The word `w` rotated right by `k` bits, as a 32-bit word. -/
def rotateRight32 (k w : Nat) : Nat :=
  (w / 2 ^ k + w * 2 ^ (32 - k)) % 2 ^ 32

/-- Exclusive or of three words. -/
def xor3 (p q r : Nat) : Nat :=
  Nat.xor (Nat.xor p q) r

/-- The choice function of SHA-256: bit by bit, `f` where `e` is set and
`g` where it is not. -/
def choose32 (e f g : Nat) : Nat :=
  Nat.xor (Nat.land e f) (Nat.land (Nat.xor (2 ^ 32 - 1) e) g)

/-- The majority function of SHA-256. -/
def majority32 (a b c : Nat) : Nat :=
  xor3 (Nat.land a b) (Nat.land a c) (Nat.land b c)

/-- The function Sigma-0 of the compression rounds (rotations 2, 13, 22). -/
def bigSigma0 (a : Nat) : Nat :=
  xor3 (rotateRight32 2 a) (rotateRight32 13 a) (rotateRight32 22 a)

/-- The function Sigma-1 of the compression rounds (rotations 6, 11, 25). -/
def bigSigma1 (e : Nat) : Nat :=
  xor3 (rotateRight32 6 e) (rotateRight32 11 e) (rotateRight32 25 e)

/-- The function sigma-0 of the message schedule (rotations 7, 18, shift 3). -/
def smallSigma0 (w : Nat) : Nat :=
  xor3 (rotateRight32 7 w) (rotateRight32 18 w) (w / 2 ^ 3)

/-- The function sigma-1 of the message schedule (rotations 17, 19, shift 10). -/
def smallSigma1 (w : Nat) : Nat :=
  xor3 (rotateRight32 17 w) (rotateRight32 19 w) (w / 2 ^ 10)

/-- The 64 round constants of FIPS 180-4 (section 4.2.2), in decimal: the
first is `0x428a2f98`, the last `0xc67178f2`. -/
def sha256K : List Nat :=
  [1116352408, 1899447441, 3049323471, 3921009573, 961987163, 1508970993,
   2453635748, 2870763221, 3624381080, 310598401, 607225278, 1426881987,
   1925078388, 2162078206, 2614888103, 3248222580, 3835390401, 4022224774,
   264347078, 604807628, 770255983, 1249150122, 1555081692, 1996064986,
   2554220882, 2821834349, 2952996808, 3210313671, 3336571891, 3584528711,
   113926993, 338241895, 666307205, 773529912, 1294757372, 1396182291,
   1695183700, 1986661051, 2177026350, 2456956037, 2730485921, 2820302411,
   3259730800, 3345764771, 3516065817, 3600352804, 4094571909, 275423344,
   430227734, 506948616, 659060556, 883997877, 958139571, 1322822218,
   1537002063, 1747873779, 1955562222, 2024104815, 2227730452, 2361852424,
   2428436474, 2756734187, 3204031479, 3329325298]

/-- The eight working words of SHA-256. -/
structure Sha256State where
  a : Nat
  b : Nat
  c : Nat
  d : Nat
  e : Nat
  f : Nat
  g : Nat
  h : Nat
deriving DecidableEq, Repr

/-- The initial hash value of FIPS 180-4 (section 5.3.3), in decimal: the
first word is `0x6a09e667`. -/
def sha256Init : Sha256State :=
  ⟨1779033703, 3144134277, 1013904242, 2773480762,
   1359893119, 2600822924, 528734635, 1541459225⟩

/-- The padded message: the bytes, `0x80`, zero bytes up to 56 modulo 64,
and the bit length as eight big-endian bytes. -/
def sha256Pad (msg : List Nat) : List Nat :=
  let l := msg.length
  let bits := 8 * l
  msg.map (fun b => b % 256) ++ [0x80] ++ List.replicate ((119 - l % 64) % 64) 0 ++
    (List.range 8).map (fun i => (bits >>> (8 * (7 - i))) % 256)

/-- The big-endian 32-bit words of a byte sequence. -/
def wordsBE : List Nat → List Nat
  | b0 :: b1 :: b2 :: b3 :: rest => (((b0 * 256 + b1) * 256 + b2) * 256 + b3) :: wordsBE rest
  | _ => []

/-- Extends the message schedule by `n` words. -/
def sha256Schedule (w : List Nat) : Nat → List Nat
  | 0 => w
  | n + 1 =>
    let l := w.length
    let x := add32 (add32 (smallSigma1 (w.getD (l - 2) 0)) (w.getD (l - 7) 0))
      (add32 (smallSigma0 (w.getD (l - 15) 0)) (w.getD (l - 16) 0))
    sha256Schedule (w ++ [x]) n

/-- One compression round with round constant `k` and schedule word `w`. -/
def sha256Round (s : Sha256State) (kw : Nat × Nat) : Sha256State :=
  let t1 := add32 (add32 (add32 s.h (bigSigma1 s.e)) (add32 (choose32 s.e s.f s.g) kw.1)) kw.2
  let t2 := add32 (bigSigma0 s.a) (majority32 s.a s.b s.c)
  ⟨add32 t1 t2, s.a, s.b, s.c, add32 s.d t1, s.e, s.f, s.g⟩

/-- Compression of one 64-byte block into the hash value. -/
def sha256Block (hv : Sha256State) (block : List Nat) : Sha256State :=
  let w := sha256Schedule (wordsBE block) 48
  let s := (sha256K.zip w).foldl sha256Round hv
  ⟨add32 hv.a s.a, add32 hv.b s.b, add32 hv.c s.c, add32 hv.d s.d,
   add32 hv.e s.e, add32 hv.f s.f, add32 hv.g s.g, add32 hv.h s.h⟩

/-- Processes `n` consecutive 64-byte blocks of `m`. -/
def sha256Blocks (hv : Sha256State) (m : List Nat) : Nat → Sha256State
  | 0 => hv
  | n + 1 => sha256Blocks (sha256Block hv (m.take 64)) (m.drop 64) n

/-- The four big-endian bytes of a 32-bit word. -/
def bytesBE (x : Nat) : List Nat :=
  [x / 2 ^ 24 % 256, x / 2 ^ 16 % 256, x / 2 ^ 8 % 256, x % 256]

/-- SHA-256 of a byte sequence: the 32-byte digest. -/
def sha256 (msg : List Nat) : List Nat :=
  let p := sha256Pad msg
  let s := sha256Blocks sha256Init p (p.length / 64)
  bytesBE s.a ++ bytesBE s.b ++ bytesBE s.c ++ bytesBE s.d ++
    bytesBE s.e ++ bytesBE s.f ++ bytesBE s.g ++ bytesBE s.h

/-- Library routine `mbedtls_sha256(input, ilen, output, 0)`: hashes the
first `ilen` bytes at `input` and stores the 32-byte digest at `output`. -/
def mbedtls_sha256 (input : List Nat) (ilen : Nat) (output : Buf) : Buf × Bool :=
  storeBytes output 0 (sha256 (input.take ilen))

/-! ## Base64 (RFC 4648), the encoding computed by `mbedtls_base64_encode` -/

/-- The base64 alphabet: the character code of the 6-bit value `i`
(`A-Z`, `a-z`, `0-9`, `+`, `/`). -/
def base64_enc_map (i : Nat) : Nat :=
  if i < 26 then 65 + i
  else if i < 52 then 97 + (i - 26)
  else if i < 62 then 48 + (i - 52)
  else if i = 62 then 43
  else 47

/-- The base64 characters of a byte sequence: four characters for each
three bytes, the last group padded with `=` (code 61). The shifts and
masks of the routine are written as divisions and remainders. -/
def base64Chars : List Nat → List Nat
  | c1 :: c2 :: c3 :: rest =>
    base64_enc_map (c1 / 4 % 64) :: base64_enc_map ((c1 % 4 * 16 + c2 / 16) % 64) ::
      base64_enc_map ((c2 % 16 * 4 + c3 / 64) % 64) :: base64_enc_map (c3 % 64) ::
      base64Chars rest
  | [c1, c2] =>
    [base64_enc_map (c1 / 4 % 64), base64_enc_map ((c1 % 4 * 16 + c2 / 16) % 64),
     base64_enc_map (c2 % 16 * 4 % 64), 61]
  | [c1] =>
    [base64_enc_map (c1 / 4 % 64), base64_enc_map (c1 % 4 * 16 % 64), 61, 61]
  | [] => []

/-- What `mbedtls_base64_encode` hands back: the destination block, the
value stored in `*olen`, the return code, and whether its stores were in
range. -/
structure Base64Ret where
  dst : Buf
  olen : Nat
  ret : Int
  inBounds : Bool

/-- Library routine `mbedtls_base64_encode(dst, dlen, &olen, src, slen)`:
with `slen = 0` it sets `olen = 0`; when `dlen` is too small for the
characters and the terminating NUL it sets `olen` to the size needed and
returns `MBEDTLS_ERR_BASE64_BUFFER_TOO_SMALL` (-0x002A) without writing;
otherwise it writes the characters and a NUL and sets `olen` to the number
of characters. -/
def mbedtls_base64_encode (dst : Buf) (dlen : Nat) (src : List Nat) (slen : Nat) : Base64Ret :=
  if slen = 0 then ⟨dst, 0, 0, true⟩
  else
    let n := (slen / 3 + (if slen % 3 ≠ 0 then 1 else 0)) * 4
    if dlen < n + 1 then ⟨dst, n + 1, -0x002A, true⟩
    else
      let r := storeBytes dst 0 (base64Chars (src.take slen) ++ [0])
      ⟨r.1, n, 0, r.2⟩

/-- The 6-bit value of a base64 alphabet character, `none` for any other
character. -/
def base64_dec_map (c : Nat) : Option Nat :=
  if 65 ≤ c ∧ c ≤ 90 then some (c - 65)
  else if 97 ≤ c ∧ c ≤ 122 then some (c - 97 + 26)
  else if 48 ≤ c ∧ c ≤ 57 then some (c - 48 + 52)
  else if c = 43 then some 62
  else if c = 47 then some 63
  else none

/-- Base64 decoding (RFC 4648): groups of four alphabet characters give
three bytes; the last group may end in `=` (two bytes) or `==` (one byte);
anything else is not valid base64 (`none`). -/
def base64_decode : List Nat → Option (List Nat)
  | [] => some []
  | c1 :: c2 :: c3 :: c4 :: rest =>
    if c4 = 61 then
      if rest ≠ [] then none
      else if c3 = 61 then
        match base64_dec_map c1, base64_dec_map c2 with
        | some v1, some v2 => some [v1 * 4 + v2 / 16]
        | _, _ => none
      else
        match base64_dec_map c1, base64_dec_map c2, base64_dec_map c3 with
        | some v1, some v2, some v3 => some [v1 * 4 + v2 / 16, v2 % 16 * 16 + v3 / 4]
        | _, _, _ => none
    else
      match base64_dec_map c1, base64_dec_map c2, base64_dec_map c3, base64_dec_map c4,
        base64_decode rest with
      | some v1, some v2, some v3, some v4, some tl =>
        some ((v1 * 4 + v2 / 16) :: (v2 % 16 * 16 + v3 / 4) :: (v3 % 4 * 64 + v4) :: tl)
      | _, _, _, _, _ => none
  | _ => none

/-! ## The random generator -/

/-- The CTR-DRBG context `rng`: the byte stream the generator will produce
and how many of its bytes have been drawn. -/
structure CtrDrbg where
  stream : Nat → Nat
  pos : Nat

/-- The next `len` bytes of the generator. -/
def CtrDrbg.next (rng : CtrDrbg) (len : Nat) : List Nat :=
  (List.range len).map (fun k => rng.stream (rng.pos + k) % 256)

/-- What `mbedtls_ctr_drbg_random` hands back. -/
structure RandomRet where
  rng : CtrDrbg
  output : Buf
  inBounds : Bool

/-- Library routine `mbedtls_ctr_drbg_random(&rng, output, len)`: stores the
next `len` bytes of the generator at `output` and advances the generator.
Its return code is not looked at by `GenerateSalt`, so none is modelled: a
call that fails and leaves the zero-filled block as it is, is a call on a
stream of zero bytes. -/
def mbedtls_ctr_drbg_random (rng : CtrDrbg) (output : Buf) (len : Nat) : RandomRet :=
  let r := storeBytes output 0 (rng.next len)
  ⟨{ rng with pos := rng.pos + len }, r.1, r.2⟩

/-! ## `Config` -/

/-- The fields of `Config`. The three `const char *` fields hold the C
string they point at. -/
structure Config where
  ServerEnabled : Bool
  ServerPort : Nat
  AuthRequired : Bool
  Secret : List Nat
  Salt : List Nat
  SessionChallenge : List Nat
  SettingsLoaded : Bool
  rng : CtrDrbg

/-- The result of a member function: the value returned, the object after
the call, and whether every store of the call was inside its block. -/
structure Step (α : Type) where
  ret : α
  self : Config
  inBounds : Bool

/-- The result of a function that does not touch the object. -/
structure Checked (α : Type) where
  ret : α
  inBounds : Bool

/-- `Config::GenerateSalt`. -/
def GenerateSalt (self : Config) : Step (List Nat) :=
  -- Generate 32 random chars
  let random_chars := bzalloc 32
  let r := mbedtls_ctr_drbg_random self.rng random_chars 32
  -- Convert the 32 random chars to a base64 string
  let salt := bzalloc 64
  let e := mbedtls_base64_encode salt 64 r.output.bytes 32
  let salt_bytes := e.olen
  let z := e.dst.store salt_bytes 0
  ⟨cstr z.1.bytes, { self with rng := r.rng }, r.inBounds && e.inBounds && z.2⟩

/-- `Config::GenerateSecret`. -/
def GenerateSecret (password salt : List Nat) : Checked (List Nat) :=
  let passwordLength := strlen password
  let saltLength := strlen salt
  -- Concatenate the password and the salt
  let passAndSalt := bzalloc (passwordLength + saltLength)
  let m1 := memcpy passAndSalt 0 password passwordLength
  let m2 := memcpy m1.1 passwordLength salt saltLength
  let t := m2.1.store (passwordLength + saltLength) 0
  -- Generate a SHA256 hash of the password
  let challengeHash := bzalloc 32
  let h := mbedtls_sha256 t.1.bytes (passwordLength + saltLength) challengeHash
  -- Encode SHA256 hash to Base64
  let challenge := bzalloc 64
  let e := mbedtls_base64_encode challenge 64 h.1.bytes 32
  let z := e.dst.store 64 0
  ⟨cstr z.1.bytes, m1.2 && m2.2 && t.2 && h.2 && e.inBounds && z.2⟩

/-- `Config::SetPassword`. -/
def SetPassword (self : Config) (password : List Nat) : Step Unit :=
  let g := GenerateSalt self
  let new_salt := g.ret
  let c := GenerateSecret password new_salt
  ⟨(), { g.self with Salt := new_salt, Secret := c.ret }, g.inBounds && c.inBounds⟩

/-- `Config::CheckAuth`. -/
def CheckAuth (self : Config) (response : List Nat) : Step Bool :=
  let secretLength := strlen self.Secret
  let sessChallengeLength := strlen self.SessionChallenge
  -- Concatenate auth secret with the challenge sent to the user
  let challengeAndResponse := bzalloc (secretLength + sessChallengeLength)
  let m1 := memcpy challengeAndResponse 0 self.Secret secretLength
  let m2 := memcpy m1.1 secretLength self.SessionChallenge sessChallengeLength
  let t := m2.1.store (secretLength + sessChallengeLength) 0
  -- Generate a SHA256 hash of challengeAndResponse
  let hash := bzalloc 32
  let h := mbedtls_sha256 t.1.bytes (secretLength + sessChallengeLength) hash
  -- Encode the SHA256 hash to Base64
  let expected_response := bzalloc 64
  let e := mbedtls_base64_encode expected_response 64 h.1.bytes 32
  let z := e.dst.store 64 0
  let ok := m1.2 && m2.2 && t.2 && h.2 && e.inBounds && z.2
  if strcmp z.1.bytes response = 0 then
    let g := GenerateSalt self
    ⟨true, { g.self with SessionChallenge := g.ret }, ok && g.inBounds⟩
  else
    ⟨false, self, ok⟩

/-- `Config::Config`: the default settings, then the generator is set up
and the first session challenge is drawn. The calls on the OBS
configuration object only register defaults there and leave the fields as
they are; the return code of `mbedtls_ctr_drbg_seed` is not looked at, so
the object is built on whatever generator `rng` the seeding left. -/
def Config.new (rng : CtrDrbg) : Step Unit :=
  let self : Config :=
    { ServerEnabled := true, ServerPort := 4444, AuthRequired := false,
      Secret := [], Salt := [], SessionChallenge := [], SettingsLoaded := false, rng := rng }
  let g := GenerateSalt self
  ⟨(), { g.self with SessionChallenge := g.ret }, g.inBounds⟩

/-! ## The specification's words, and the values of its scenarios -/

/-- A sequence of bytes: every element is below 256. -/
def IsBytes (l : List Nat) : Prop :=
  ∀ b ∈ l, b < 256

/-- The response the specification asks `CheckAuth` to accept: the base64
encoding of the SHA-256 digest of the stored secret followed by the stored
session challenge. -/
def specExpected (self : Config) : List Nat :=
  base64Chars (sha256 (self.Secret ++ self.SessionChallenge))

/-- The bytes of the string `hunter2`. -/
def hunter2 : List Nat :=
  [104, 117, 110, 116, 101, 114, 50]

/-- The bytes of the string `c2FsdA==`. -/
def saltC2 : List Nat :=
  [99, 50, 70, 115, 100, 65, 61, 61]

/-- The bytes of the string `Y2hhbA==`. -/
def chalY2 : List Nat :=
  [89, 50, 104, 104, 98, 65, 61, 61]

/-- The bytes of the string `+34hqcs5dG+Kl5R+ocZlaJkGOYJ59ibg5DBXmFwfXPk=`,
the base64 encoding of the SHA-256 digest of `hunter2c2FsdA==`. -/
def hunter2Secret : List Nat :=
  [43, 51, 52, 104, 113, 99, 115, 53, 100, 71, 43, 75, 108, 53, 82, 43, 111, 99, 90, 108, 97, 74,
   107, 71, 79, 89, 74, 53, 57, 105, 98, 103, 53, 68, 66, 88, 109, 70, 119, 102, 88, 80, 107, 61]

/-- A generator whose byte stream is `3, 10, 17, ...` (modulo 256). -/
def demoRng : CtrDrbg :=
  ⟨fun i => 7 * i + 3, 0⟩

/-- The object constructed on `demoRng`. -/
def demoConfig : Config :=
  (Config.new demoRng).self

/-- The object after `SetPassword("hunter2")` with the session challenge
`Y2hhbA==` issued. -/
def hunter2Config : Config :=
  { (SetPassword demoConfig hunter2).self with SessionChallenge := chalY2 }

/-- The object after `SetPassword("hunter2")` on the constructed object:
`Secret` and `SessionChallenge` have 44 characters each. -/
def hunter2Set : Config :=
  (SetPassword demoConfig hunter2).self

/-- A generator that hands out zero bytes only. -/
def zeroRng : CtrDrbg :=
  ⟨fun _ => 0, 0⟩

/-- The object constructed on `zeroRng`. -/
def zeroConfig : Config :=
  (Config.new zeroRng).self

/-! ## Construction with the seeding call, and sequences of calls -/

/-- What `mbedtls_ctr_drbg_seed` hands back: its return code (`0` when the
generator was seeded) and the generator context as the call leaves it. -/
structure SeedRet where
  ret : Int
  rng : CtrDrbg

/-- The return code of `mbedtls_ctr_drbg_seed` when the entropy source
fails. -/
def MBEDTLS_ERR_CTR_DRBG_ENTROPY_SOURCE_FAILED : Int :=
  -0x0034

/-- `Config::Config` with the call of line 60 made explicit: `seed` is what
`mbedtls_ctr_drbg_seed` hands back. The statement of line 60 drops the
return code; the constructor goes on with the context the call left. -/
def Config.construct (seed : SeedRet) : Step Unit :=
  Config.new seed.rng

/-- Lines 151-168 of `Config::CheckAuth`: the block `expected_response` as
`strcmp` reads it at line 170. -/
def CheckAuth_expected_response (self : Config) : Buf :=
  let secretLength := strlen self.Secret
  let sessChallengeLength := strlen self.SessionChallenge
  let challengeAndResponse := bzalloc (secretLength + sessChallengeLength)
  let m1 := memcpy challengeAndResponse 0 self.Secret secretLength
  let m2 := memcpy m1.1 secretLength self.SessionChallenge sessChallengeLength
  let t := m2.1.store (secretLength + sessChallengeLength) 0
  let hash := bzalloc 32
  let h := mbedtls_sha256 t.1.bytes (secretLength + sessChallengeLength) hash
  let expected_response := bzalloc 64
  let e := mbedtls_base64_encode expected_response 64 h.1.bytes 32
  let z := e.dst.store 64 0
  z.1

/-- A call on the object: `SetPassword(password)` or `CheckAuth(response)`. -/
inductive Call where
  | setPassword (password : List Nat)
  | checkAuth (response : List Nat)

/-- The object after one call. -/
def Call.run (self : Config) : Call → Config
  | Call.setPassword password => (SetPassword self password).self
  | Call.checkAuth response => (CheckAuth self response).self

/-- The object after a sequence of calls, the first call first. -/
def runCalls (self : Config) (calls : List Call) : Config :=
  calls.foldl Call.run self

/-- The password of the most recent `SetPassword` in a sequence of calls,
`none` when the sequence has no `SetPassword`. -/
def lastPassword : List Call → Option (List Nat)
  | [] => none
  | c :: cs =>
    match lastPassword cs with
    | some p => some p
    | none =>
      match c with
      | Call.setPassword p => some p
      | Call.checkAuth _ => none

/-- The pairing of `Secret` and `Salt`: both empty when no password was
set, and `Secret = GenerateSecret(P, Salt)` when `P` is the password set
last. -/
def Paired (last : Option (List Nat)) (self : Config) : Prop :=
  match last with
  | none => self.Secret = [] ∧ self.Salt = []
  | some P => self.Secret = (GenerateSecret P self.Salt).ret

/-! ## C strings: basic facts -/

theorem cstr_nulFree (m : List Nat) : NulFree (cstr m) := by
  intro b hb
  have h := List.mem_takeWhile_imp hb
  simpa using h

theorem cstr_of_nulFree {s : List Nat} (h : NulFree s) : cstr s = s := by
  unfold cstr
  rw [List.takeWhile_eq_self_iff]
  intro b hb
  simpa using h b hb

theorem cstr_append_zero {s : List Nat} (h : NulFree s) (t : List Nat) :
    cstr (s ++ 0 :: t) = s := by
  induction s with
  | nil => simp [cstr]
  | cons a s ih =>
    have ha : a ≠ 0 := h a (List.mem_cons_self a s)
    have hs : NulFree s := fun b hb => h b (List.mem_cons_of_mem a hb)
    have := ih hs
    unfold cstr at this ⊢
    simp [List.takeWhile_cons, ha, this]

theorem cstr_idem (m : List Nat) : cstr (cstr m) = cstr m :=
  cstr_of_nulFree (cstr_nulFree m)

theorem take_strlen (s : List Nat) : s.take (strlen s) = cstr s := by
  unfold strlen cstr
  induction s with
  | nil => simp
  | cons a s ih =>
    by_cases ha : a = 0
    · simp [List.takeWhile_cons, ha]
    · simp [List.takeWhile_cons, ha, ih]

theorem strlen_of_nulFree {s : List Nat} (h : NulFree s) : strlen s = s.length := by
  unfold strlen
  rw [cstr_of_nulFree h]

theorem strcmp_eq_zero_iff (a b : List Nat) : strcmp a b = 0 ↔ cstr a = cstr b := by
  induction a generalizing b with
  | nil =>
    cases b with
    | nil => simp [strcmp, cstr]
    | cons y bs =>
      by_cases hy : y = 0
      · simp [strcmp, cstr, List.takeWhile_cons, hy]
      · simp [strcmp, cstr, List.takeWhile_cons, hy]
  | cons x as ih =>
    cases b with
    | nil =>
      by_cases hx : x = 0
      · simp [strcmp, cstr, List.takeWhile_cons, hx]
      · simp [strcmp, cstr, List.takeWhile_cons, hx]
    | cons y bs =>
      by_cases hxy : x = y
      · subst hxy
        by_cases hx : x = 0
        · simp [strcmp, cstr, List.takeWhile_cons, hx]
        · have := ih bs
          unfold cstr at this
          simp [strcmp, cstr, List.takeWhile_cons, hx, this]
      · have hne : (x : Int) - (y : Int) ≠ 0 := by omega
        by_cases hx : x = 0 <;> by_cases hy : y = 0
        · omega
        · simp [strcmp, cstr, List.takeWhile_cons, hx, hy, hxy]
          omega
        · simp [strcmp, cstr, List.takeWhile_cons, hx, hy, hxy]
        · simp [strcmp, cstr, List.takeWhile_cons, hx, hy, hxy]
          omega

/-! ## Heap blocks: basic facts -/

theorem store_out_of_range (b : Buf) (i v : Nat) (h : b.size ≤ i) :
    b.store i v = (b, false) := by
  unfold Buf.store
  rw [if_neg (by omega)]

theorem store_in_range (b : Buf) (i v : Nat) (h : i < b.size) :
    b.store i v = (⟨b.bytes.set i v⟩, true) := by
  unfold Buf.store
  rw [if_pos h]

theorem storeBytes_fit (xs : List Nat) : ∀ (dst : Buf) (off : Nat),
    off + xs.length ≤ dst.size →
    storeBytes dst off xs =
      (⟨dst.bytes.take off ++ xs ++ dst.bytes.drop (off + xs.length)⟩, true) := by
  induction xs with
  | nil =>
    intro dst off _
    simp [storeBytes]
  | cons x xs ih =>
    intro dst off h
    simp only [List.length_cons] at h
    have hlt : off < dst.size := by omega
    have hlt2 : off < dst.bytes.length := hlt
    unfold storeBytes
    rw [store_in_range dst off x hlt]
    have hsz : (Buf.mk (dst.bytes.set off x)).size = dst.size := by
      simp [Buf.size]
    simp only []
    rw [ih ⟨dst.bytes.set off x⟩ (off + 1) (by rw [hsz]; omega)]
    simp only [Bool.and_self, List.length_cons]
    congr 2
    rw [List.set_eq_take_append_cons_drop, if_pos hlt2]
    have e1 : List.take (off + 1) (List.take off dst.bytes ++ x :: List.drop (off + 1) dst.bytes)
        = List.take off dst.bytes ++ [x] := by
      rw [List.take_append_eq_append_take]
      simp [List.length_take, Nat.min_eq_left (Nat.le_of_lt hlt2)]
    have e2 : List.drop (off + 1 + xs.length)
        (List.take off dst.bytes ++ x :: List.drop (off + 1) dst.bytes)
        = List.drop (off + (xs.length + 1)) dst.bytes := by
      rw [List.drop_append_eq_append_drop]
      simp [List.length_take, Nat.min_eq_left (Nat.le_of_lt hlt2)]
      have h3 : off + 1 + xs.length - off = xs.length + 1 := by omega
      rw [List.drop_eq_nil_of_le (by simp; omega), h3]
      simp [List.drop_drop]
      congr 1
      omega
    rw [e1, e2]
    simp

/-! ## SHA-256 and base64: sizes and characters -/

theorem sha256_length (msg : List Nat) : (sha256 msg).length = 32 := by
  simp [sha256, bytesBE]

theorem base64_enc_map_ne_zero (i : Nat) : base64_enc_map i ≠ 0 := by
  unfold base64_enc_map
  split_ifs <;> omega

theorem base64Chars_length (l : List Nat) :
    (base64Chars l).length = 4 * ((l.length + 2) / 3) := by
  induction l using base64Chars.induct with
  | case1 c1 c2 c3 rest ih =>
    simp only [base64Chars, List.length_cons, ih]
    omega
  | case2 c1 c2 => simp [base64Chars]
  | case3 c1 => simp [base64Chars]
  | case4 => simp [base64Chars]

theorem base64Chars_nulFree (l : List Nat) : NulFree (base64Chars l) := by
  induction l using base64Chars.induct with
  | case1 c1 c2 c3 rest ih =>
    intro b hb
    simp only [base64Chars, List.mem_cons] at hb
    rcases hb with h | h | h | h | h
    · exact h ▸ base64_enc_map_ne_zero _
    · exact h ▸ base64_enc_map_ne_zero _
    · exact h ▸ base64_enc_map_ne_zero _
    · exact h ▸ base64_enc_map_ne_zero _
    · exact ih b h
  | case2 c1 c2 =>
    intro b hb
    simp only [base64Chars, List.mem_cons, List.mem_singleton, List.not_mem_nil, or_false] at hb
    rcases hb with h | h | h | h
    · exact h ▸ base64_enc_map_ne_zero _
    · exact h ▸ base64_enc_map_ne_zero _
    · exact h ▸ base64_enc_map_ne_zero _
    · omega
  | case3 c1 =>
    intro b hb
    simp only [base64Chars, List.mem_cons, List.mem_singleton, List.not_mem_nil, or_false] at hb
    rcases hb with h | h | h | h
    · exact h ▸ base64_enc_map_ne_zero _
    · exact h ▸ base64_enc_map_ne_zero _
    · omega
    · omega
  | case4 =>
    intro b hb
    simp [base64Chars] at hb

/-! ## The steps shared by `GenerateSecret` and `CheckAuth` -/

/-- The two `memcpy` calls into the fresh block leave the concatenation of
the two C strings there, with every store in range. -/
theorem concat_block (a b : List Nat) :
    memcpy (memcpy (bzalloc (strlen a + strlen b)) 0 a (strlen a)).1 (strlen a) b (strlen b)
      = (⟨cstr a ++ cstr b⟩, true) ∧
    (memcpy (bzalloc (strlen a + strlen b)) 0 a (strlen a)).2 = true := by
  unfold memcpy
  rw [take_strlen, take_strlen]
  have hla : (cstr a).length = strlen a := rfl
  have hlb : (cstr b).length = strlen b := rfl
  rw [storeBytes_fit (cstr a) _ 0 (by simp [Buf.size, bzalloc, hla])]
  refine ⟨?_, rfl⟩
  simp only [bzalloc, List.take_zero, List.nil_append, Nat.zero_add, List.drop_replicate, hla,
    Nat.add_sub_cancel_left]
  rw [storeBytes_fit (cstr b) _ (strlen a) (by simp [Buf.size, hla, hlb])]
  simp [hla, hlb]

/-- Hashing the whole block into a fresh 32-byte block. -/
theorem sha256_block (m : List Nat) :
    mbedtls_sha256 m m.length (bzalloc 32) = (⟨sha256 m⟩, true) := by
  unfold mbedtls_sha256
  rw [List.take_length, storeBytes_fit _ _ 0 (by simp [Buf.size, bzalloc, sha256_length])]
  simp [bzalloc, sha256_length]

/-- Encoding 32 bytes into a fresh 64-byte block: 44 characters, the NUL,
and the zero bytes that were there; `olen` is 44. -/
theorem base64_block (d : List Nat) (hd : d.length = 32) :
    mbedtls_base64_encode (bzalloc 64) 64 d 32
      = ⟨⟨base64Chars d ++ 0 :: List.replicate 19 0⟩, 44, 0, true⟩ := by
  have hlen : (base64Chars d).length = 44 := by
    rw [base64Chars_length, hd]
  have htake : d.take 32 = d := by
    rw [← hd, List.take_length]
  unfold mbedtls_base64_encode
  rw [if_neg (by decide), if_neg (by decide), htake]
  simp only []
  rw [storeBytes_fit _ _ 0 (by simp [Buf.size, bzalloc, hlen])]
  simp [bzalloc, hlen]

/-! ## What the three functions compute -/

/-- Drawing 32 bytes into a fresh 32-byte block. -/
theorem random_block (rng : CtrDrbg) :
    mbedtls_ctr_drbg_random rng (bzalloc 32) 32
      = ⟨{ rng with pos := rng.pos + 32 }, ⟨rng.next 32⟩, true⟩ := by
  have hl : (rng.next 32).length = 32 := by simp [CtrDrbg.next]
  unfold mbedtls_ctr_drbg_random
  simp only []
  rw [storeBytes_fit _ _ 0 (by simp [Buf.size, bzalloc, hl])]
  simp [bzalloc, hl]

/-- The C string in the block that `mbedtls_base64_encode` filled. -/
theorem cstr_base64_block (d : List Nat) :
    cstr (base64Chars d ++ 0 :: List.replicate 19 0) = base64Chars d :=
  cstr_append_zero (base64Chars_nulFree d) _

/-- The size of the block that `mbedtls_base64_encode` filled from 32 bytes. -/
theorem base64_block_size (d : List Nat) (hd : d.length = 32) :
    (Buf.mk (base64Chars d ++ 0 :: List.replicate 19 0)).size = 64 := by
  simp only [Buf.size, List.length_append, List.length_cons, List.length_replicate,
    base64Chars_length, hd]

/-- The store `p[64] = 0` on the 64-byte block is out of range. -/
theorem store_64_block (d : List Nat) (hd : d.length = 32) :
    (Buf.mk (base64Chars d ++ 0 :: List.replicate 19 0)).store 64 0
      = (⟨base64Chars d ++ 0 :: List.replicate 19 0⟩, false) :=
  store_out_of_range _ 64 0 (by rw [base64_block_size d hd])

/-- The store `p[n] = 0` on a block of `n` bytes is out of range. -/
theorem store_at_size (m : List Nat) (n : Nat) (h : m.length = n) :
    (Buf.mk m).store n 0 = (⟨m⟩, false) :=
  store_out_of_range _ n 0 (by simp [Buf.size, h])

/-- Concatenation, hash and encoding as `GenerateSecret` and `CheckAuth`
both perform them: the block that holds the result and the flags of the
six steps. -/
theorem derive_steps (a b : List Nat) :
    let n := strlen a + strlen b
    let m1 := memcpy (bzalloc n) 0 a (strlen a)
    let m2 := memcpy m1.1 (strlen a) b (strlen b)
    let t := m2.1.store n 0
    let h := mbedtls_sha256 t.1.bytes n (bzalloc 32)
    let e := mbedtls_base64_encode (bzalloc 64) 64 h.1.bytes 32
    let z := e.dst.store 64 0
    z.1.bytes = base64Chars (sha256 (cstr a ++ cstr b)) ++ 0 :: List.replicate 19 0 ∧
      m1.2 = true ∧ m2.2 = true ∧ t.2 = false ∧ h.2 = true ∧ e.inBounds = true ∧ z.2 = false := by
  have hc := concat_block a b
  have hlen : (cstr a ++ cstr b).length = strlen a + strlen b := by
    simp [strlen]
  have h3 := store_at_size (cstr a ++ cstr b) (strlen a + strlen b) hlen
  have h4 : mbedtls_sha256 (cstr a ++ cstr b) (strlen a + strlen b) (bzalloc 32)
      = (⟨sha256 (cstr a ++ cstr b)⟩, true) := by
    rw [← hlen]
    exact sha256_block _
  have h5 := base64_block _ (sha256_length (cstr a ++ cstr b))
  have h6 := store_64_block _ (sha256_length (cstr a ++ cstr b))
  simp only [hc.1, hc.2, h3, h4, h5, h6]
  simp

theorem GenerateSalt_eq (self : Config) :
    GenerateSalt self =
      ⟨base64Chars (self.rng.next 32), { self with rng := { self.rng with pos := self.rng.pos + 32 } },
        true⟩ := by
  have hl : (self.rng.next 32).length = 32 := by simp [CtrDrbg.next]
  have hlen : (base64Chars (self.rng.next 32)).length = 44 := by
    rw [base64Chars_length, hl]
  have hst : (Buf.mk (base64Chars (self.rng.next 32) ++ 0 :: List.replicate 19 0)).store 44 0
      = (⟨base64Chars (self.rng.next 32) ++ 0 :: List.replicate 19 0⟩, true) := by
    rw [store_in_range _ 44 0 (by rw [base64_block_size _ hl]; decide)]
    have hset : (base64Chars (self.rng.next 32) ++ 0 :: List.replicate 19 0).set 44 0
        = base64Chars (self.rng.next 32) ++ 0 :: List.replicate 19 0 := by
      rw [List.set_append_right _ _ (by omega), hlen]
      rfl
    rw [hset]
  unfold GenerateSalt
  simp only [random_block, base64_block _ hl, hst, cstr_base64_block, Bool.and_self]

theorem GenerateSecret_eq (password salt : List Nat) :
    GenerateSecret password salt =
      ⟨base64Chars (sha256 (cstr password ++ cstr salt)), false⟩ := by
  have hd := derive_steps password salt
  simp only [] at hd
  obtain ⟨h0, h1, h2, h3, h4, h5, h6⟩ := hd
  unfold GenerateSecret
  simp only [h0, h1, h2, h3, h4, h5, h6, cstr_base64_block]
  rfl

theorem CheckAuth_eq (self : Config) (response : List Nat) :
    CheckAuth self response =
      if cstr response = base64Chars (sha256 (cstr self.Secret ++ cstr self.SessionChallenge)) then
        ⟨true, { self with rng := { self.rng with pos := self.rng.pos + 32 },
                           SessionChallenge := base64Chars (self.rng.next 32) }, false⟩
      else ⟨false, self, false⟩ := by
  have hd := derive_steps self.Secret self.SessionChallenge
  simp only [] at hd
  obtain ⟨h0, h1, h2, h3, h4, h5, h6⟩ := hd
  unfold CheckAuth
  simp only [h0, h1, h2, h3, h4, h5, h6, strcmp_eq_zero_iff, cstr_base64_block, GenerateSalt_eq]
  by_cases h : cstr response = base64Chars (sha256 (cstr self.Secret ++ cstr self.SessionChallenge))
  · rw [if_pos h.symm, if_pos h]
    rfl
  · rw [if_neg (fun h2 => h h2.symm), if_neg h]
    rfl

theorem SetPassword_eq (self : Config) (password : List Nat) :
    SetPassword self password =
      ⟨(), { self with rng := { self.rng with pos := self.rng.pos + 32 },
                       Salt := base64Chars (self.rng.next 32),
                       Secret := base64Chars (sha256 (cstr password ++ base64Chars (self.rng.next 32))) },
        false⟩ := by
  unfold SetPassword
  simp only [GenerateSalt_eq, GenerateSecret_eq, cstr_of_nulFree (base64Chars_nulFree _)]
  rfl

/-! ## Base64: decoding undoes encoding -/

theorem base64_dec_enc (i : Nat) (h : i < 64) :
    base64_dec_map (base64_enc_map i) = some i := by
  unfold base64_enc_map base64_dec_map
  split_ifs <;> first | omega | (congr 1; omega)

theorem base64_enc_map_ne_pad (i : Nat) : base64_enc_map i ≠ 61 := by
  unfold base64_enc_map
  split_ifs <;> omega

theorem base64Chars_ne_nil_iff (l : List Nat) : base64Chars l = [] ↔ l = [] := by
  induction l using base64Chars.induct <;> simp [base64Chars]

theorem base64_decode_encode (l : List Nat) (h : IsBytes l) :
    base64_decode (base64Chars l) = some l := by
  induction l using base64Chars.induct with
  | case1 c1 c2 c3 rest ih =>
    have h1 : c1 < 256 := h c1 (by simp)
    have h2 : c2 < 256 := h c2 (by simp)
    have h3 : c3 < 256 := h c3 (by simp)
    have hr : IsBytes rest := fun b hb => h b (by simp [hb])
    simp only [base64Chars, base64_decode]
    rw [if_neg (base64_enc_map_ne_pad _)]
    rw [base64_dec_enc _ (Nat.mod_lt _ (by decide)), base64_dec_enc _ (Nat.mod_lt _ (by decide)),
      base64_dec_enc _ (Nat.mod_lt _ (by decide)), base64_dec_enc _ (Nat.mod_lt _ (by decide)),
      ih hr]
    simp only [Option.some.injEq, List.cons.injEq, and_true]
    refine ⟨?_, ?_, ?_⟩ <;> omega
  | case2 c1 c2 =>
    have h1 : c1 < 256 := h c1 (by simp)
    have h2 : c2 < 256 := h c2 (by simp)
    simp only [base64Chars, base64_decode]
    rw [if_pos trivial, if_neg (by simp), if_neg (base64_enc_map_ne_pad _)]
    rw [base64_dec_enc _ (Nat.mod_lt _ (by decide)), base64_dec_enc _ (Nat.mod_lt _ (by decide)),
      base64_dec_enc _ (Nat.mod_lt _ (by decide))]
    simp only [Option.some.injEq, List.cons.injEq, and_true]
    refine ⟨?_, ?_⟩ <;> omega
  | case3 c1 =>
    have h1 : c1 < 256 := h c1 (by simp)
    simp only [base64Chars, base64_decode]
    rw [if_pos trivial, if_neg (by simp), if_pos trivial]
    rw [base64_dec_enc _ (Nat.mod_lt _ (by decide)), base64_dec_enc _ (Nat.mod_lt _ (by decide))]
    simp only [Option.some.injEq, List.cons.injEq, and_true]
    omega
  | case4 => simp [base64Chars, base64_decode]

/-- Encoding is injective on byte sequences. -/
theorem base64Chars_injective {a b : List Nat} (ha : IsBytes a) (hb : IsBytes b)
    (h : base64Chars a = base64Chars b) : a = b := by
  have h1 := base64_decode_encode a ha
  rw [h, base64_decode_encode b hb] at h1
  exact (Option.some.inj h1).symm

theorem next_isBytes (rng : CtrDrbg) (n : Nat) : IsBytes (rng.next n) := by
  intro b hb
  simp only [CtrDrbg.next, List.mem_map] at hb
  obtain ⟨k, _, hk⟩ := hb
  omega

theorem next_length (rng : CtrDrbg) (n : Nat) : (rng.next n).length = n := by
  simp [CtrDrbg.next]

theorem sha256_isBytes (msg : List Nat) : IsBytes (sha256 msg) := by
  intro b hb
  simp only [sha256, bytesBE, List.mem_append, List.mem_cons, List.mem_singleton,
    List.not_mem_nil, or_false] at hb
  omega

/-! ## Facts used by several claims -/

theorem specExpected_length (self : Config) : (specExpected self).length = 44 := by
  unfold specExpected
  rw [base64Chars_length, sha256_length]

theorem specExpected_nulFree (self : Config) : NulFree (specExpected self) :=
  base64Chars_nulFree _

/-- With C strings in the object and as the response, `CheckAuth` accepts
exactly the response of the specification. -/
theorem CheckAuth_ret_iff (self : Config) (r : List Nat) (hS : NulFree self.Secret)
    (hC : NulFree self.SessionChallenge) (hr : NulFree r) :
    (CheckAuth self r).ret = true ↔ r = specExpected self := by
  rw [CheckAuth_eq, cstr_of_nulFree hS, cstr_of_nulFree hC, cstr_of_nulFree hr]
  unfold specExpected
  split_ifs with h
  · simp [h]
  · simp [h]

theorem CheckAuth_ret_false (self : Config) (r : List Nat) (hS : NulFree self.Secret)
    (hC : NulFree self.SessionChallenge) (hr : NulFree r) (hne : r ≠ specExpected self) :
    (CheckAuth self r).ret = false := by
  have h := CheckAuth_ret_iff self r hS hC hr
  cases hb : (CheckAuth self r).ret with
  | false => rfl
  | true => exact absurd (h.mp hb) hne

/-- After a rejected response the object is the one before the call. -/
theorem CheckAuth_self_of_false (self : Config) (r : List Nat)
    (h : (CheckAuth self r).ret = false) : (CheckAuth self r).self = self := by
  rw [CheckAuth_eq] at h ⊢
  by_cases hc : cstr r = base64Chars (sha256 (cstr self.Secret ++ cstr self.SessionChallenge))
  · rw [if_pos hc] at h
    exact absurd h (by simp)
  · rw [if_neg hc]

/-- After an accepted response the object has a new challenge and an
advanced generator, and nothing else has changed. -/
theorem CheckAuth_self_of_true (self : Config) (r : List Nat)
    (h : (CheckAuth self r).ret = true) :
    (CheckAuth self r).self =
      { self with rng := { self.rng with pos := self.rng.pos + 32 },
                  SessionChallenge := base64Chars (self.rng.next 32) } := by
  rw [CheckAuth_eq] at h ⊢
  by_cases hc : cstr r = base64Chars (sha256 (cstr self.Secret ++ cstr self.SessionChallenge))
  · rw [if_pos hc]
  · rw [if_neg hc] at h
    exact absurd h (by simp)

/-- Both terminator stores of `CheckAuth` are out of range, whatever the
object and the response. -/
theorem CheckAuth_inBounds (self : Config) (r : List Nat) :
    (CheckAuth self r).inBounds = false := by
  rw [CheckAuth_eq]
  split_ifs <;> rfl

/-! ## The claims -/

/-- C1: for C strings `P` and `S`, `GenerateSecret(P, S)` returns the base64
encoding of the 32-byte SHA-256 digest of the bytes of `P` followed by the
bytes of `S`, a string of 44 characters; the function has no argument but
`P` and `S`. -/
theorem GenerateSecret_spec (P S : List Nat) (hP : NulFree P) (hS : NulFree S) :
    (GenerateSecret P S).ret = base64Chars (sha256 (P ++ S)) ∧
    (sha256 (P ++ S)).length = 32 ∧
    (GenerateSecret P S).ret.length = 44 := by
  rw [GenerateSecret_eq, cstr_of_nulFree hP, cstr_of_nulFree hS]
  refine ⟨rfl, sha256_length _, ?_⟩
  simp only [base64Chars_length, sha256_length]

theorem GenerateSecret_spec_witness :
    NulFree hunter2 ∧ NulFree saltC2 ∧
    (GenerateSecret hunter2 saltC2).ret = base64Chars (sha256 (hunter2 ++ saltC2)) ∧
    (GenerateSecret hunter2 saltC2).ret.length = 44 ∧
    base64Chars (sha256 (hunter2 ++ saltC2)) = hunter2Secret :=
  ⟨by decide, by decide,
    (GenerateSecret_spec hunter2 saltC2 (by decide) (by decide)).1,
    (GenerateSecret_spec hunter2 saltC2 (by decide) (by decide)).2.2,
    by decide!⟩

/-- C2: with C strings stored and supplied, `CheckAuth(r)` returns true if
and only if `r` is the base64 encoding of the SHA-256 digest of `Secret`
followed by `SessionChallenge`, over its full length: every shorter initial
part of that string is rejected, and so is that string with further
characters appended. -/
theorem CheckAuth_exact (self : Config) (r : List Nat) (hS : NulFree self.Secret)
    (hC : NulFree self.SessionChallenge) (hr : NulFree r) :
    ((CheckAuth self r).ret = true ↔
      r = base64Chars (sha256 (self.Secret ++ self.SessionChallenge))) ∧
    (∀ n, n < 44 →
      (CheckAuth self
        ((base64Chars (sha256 (self.Secret ++ self.SessionChallenge))).take n)).ret = false) ∧
    (∀ e, e ≠ [] → NulFree e →
      (CheckAuth self
        (base64Chars (sha256 (self.Secret ++ self.SessionChallenge)) ++ e)).ret = false) := by
  refine ⟨CheckAuth_ret_iff self r hS hC hr, ?_, ?_⟩
  · intro n hn
    apply CheckAuth_ret_false self _ hS hC
    · intro b hb
      exact specExpected_nulFree self b (List.mem_of_mem_take hb)
    · intro h
      have hl := congrArg List.length h
      rw [specExpected_length] at hl
      have h44 := specExpected_length self
      unfold specExpected at h44
      rw [List.length_take, h44] at hl
      omega
  · intro e he hn
    apply CheckAuth_ret_false self _ hS hC
    · intro b hb
      rcases List.mem_append.mp hb with h | h
      · exact specExpected_nulFree self b h
      · exact hn b h
    · intro h
      have hl := congrArg List.length h
      have h44 := specExpected_length self
      unfold specExpected at h44 hl
      rw [List.length_append, h44] at hl
      have : e.length = 0 := by omega
      exact he (List.length_eq_zero.mp this)

theorem CheckAuth_exact_witness :
    NulFree hunter2Config.Secret ∧ NulFree hunter2Config.SessionChallenge ∧
    ((CheckAuth hunter2Config (specExpected hunter2Config)).ret = true ↔
      specExpected hunter2Config
        = base64Chars (sha256 (hunter2Config.Secret ++ hunter2Config.SessionChallenge))) ∧
    (CheckAuth hunter2Config
      ((base64Chars (sha256 (hunter2Config.Secret ++ hunter2Config.SessionChallenge))).take 43)).ret
        = false :=
  ⟨by decide!, by decide,
    (CheckAuth_exact hunter2Config (specExpected hunter2Config) (by decide!) (by decide)
      (specExpected_nulFree _)).1,
    (CheckAuth_exact hunter2Config (specExpected hunter2Config) (by decide!) (by decide)
      (specExpected_nulFree _)).2.1 43 (by decide)⟩

/-- C3: when `CheckAuth` is called with the expected response it returns
true and the stored session challenge becomes a freshly generated salt: the
base64 encoding of the next 32 bytes of the generator, which is what
`GenerateSalt` returns, and the generator has advanced by those 32 bytes. -/
theorem CheckAuth_accept_rotates (self : Config) (hS : NulFree self.Secret)
    (hC : NulFree self.SessionChallenge) :
    (CheckAuth self (specExpected self)).ret = true ∧
    (CheckAuth self (specExpected self)).self.SessionChallenge
      = base64Chars (self.rng.next 32) ∧
    (self.rng.next 32).length = 32 ∧
    (CheckAuth self (specExpected self)).self.SessionChallenge = (GenerateSalt self).ret ∧
    (CheckAuth self (specExpected self)).self.rng = (GenerateSalt self).self.rng ∧
    (CheckAuth self (specExpected self)).self.rng.pos = self.rng.pos + 32 := by
  have ht : (CheckAuth self (specExpected self)).ret = true :=
    (CheckAuth_ret_iff self _ hS hC (specExpected_nulFree self)).mpr rfl
  rw [CheckAuth_self_of_true self _ ht, GenerateSalt_eq]
  exact ⟨ht, rfl, next_length _ _, rfl, rfl, rfl⟩

theorem CheckAuth_accept_rotates_witness :
    hunter2Config.Secret = (GenerateSecret hunter2 hunter2Config.Salt).ret ∧
    hunter2Config.SessionChallenge = chalY2 ∧
    (CheckAuth hunter2Config (specExpected hunter2Config)).ret = true ∧
    (CheckAuth hunter2Config (specExpected hunter2Config)).self.SessionChallenge ≠ chalY2 := by
  have h := CheckAuth_accept_rotates hunter2Config (by decide!) (by decide)
  refine ⟨by decide!, rfl, h.1, ?_⟩
  rw [h.2.1]
  decide!

/-- C4, at the object with the password `hunter2` set and the response
`hunter2`, which is not the expected one: `CheckAuth` returns false, assigns
no field and draws no byte, so the session challenge and the generator are
as before. But the call is not without effect on what comes later: the
block for the concatenation has 88 bytes and the terminator is stored at
index 88, and the block for the base64 string has 64 bytes and the
terminator is stored at index 64. Both stores are past the end of their
block, so the rejected call writes into the heap next to them. -/
theorem CheckAuth_reject_stores_past_block :
    hunter2 ≠ specExpected hunter2Set ∧
    (CheckAuth hunter2Set hunter2).ret = false ∧
    (CheckAuth hunter2Set hunter2).self.SessionChallenge = hunter2Set.SessionChallenge ∧
    (CheckAuth hunter2Set hunter2).self.rng.pos = hunter2Set.rng.pos ∧
    strlen hunter2Set.Secret + strlen hunter2Set.SessionChallenge = 88 ∧
    (memcpy (memcpy (bzalloc 88) 0 hunter2Set.Secret 44).1 44
      hunter2Set.SessionChallenge 44).1.size = 88 ∧
    ((memcpy (memcpy (bzalloc 88) 0 hunter2Set.Secret 44).1 44
      hunter2Set.SessionChallenge 44).1.store 88 0).2 = false ∧
    (CheckAuth_expected_response hunter2Set).size = 64 ∧
    ((CheckAuth_expected_response hunter2Set).store 64 0).2 = false ∧
    (CheckAuth hunter2Set hunter2).inBounds = false := by
  have hf : (CheckAuth hunter2Set hunter2).ret = false := by decide!
  have hs := CheckAuth_self_of_false hunter2Set hunter2 hf
  rw [hs]
  exact ⟨by decide!, hf, rfl, rfl, by decide!, by decide!, by decide!, by decide!, by decide!,
    CheckAuth_inBounds _ _⟩

/-- C5: after `SetPassword(P)` the stored salt is a newly generated salt,
the base64 encoding of the next 32 bytes of the generator (what
`GenerateSalt` returns), and the stored secret is `GenerateSecret(P, Salt)`
for that new salt: both fields are replaced by the call. -/
theorem SetPassword_spec (self : Config) (P : List Nat) :
    (SetPassword self P).self.Salt = base64Chars (self.rng.next 32) ∧
    (self.rng.next 32).length = 32 ∧
    (SetPassword self P).self.Salt = (GenerateSalt self).ret ∧
    (SetPassword self P).self.rng.pos = self.rng.pos + 32 ∧
    (SetPassword self P).self.Secret
      = (GenerateSecret P (SetPassword self P).self.Salt).ret := by
  rw [SetPassword_eq, GenerateSalt_eq, GenerateSecret_eq]
  refine ⟨rfl, next_length _ _, rfl, rfl, ?_⟩
  simp only [cstr_of_nulFree (base64Chars_nulFree _)]

/-- C6: after `SetPassword(P)`, the response computed from `P`, the stored
salt and the current session challenge as
`GenerateSecret(GenerateSecret(P, Salt), SessionChallenge)` is accepted by
`CheckAuth`. -/
theorem SetPassword_then_CheckAuth (self : Config) (P : List Nat) :
    (CheckAuth (SetPassword self P).self
      (GenerateSecret (GenerateSecret P (SetPassword self P).self.Salt).ret
        (SetPassword self P).self.SessionChallenge).ret).ret = true := by
  have hsec := (SetPassword_spec self P).2.2.2.2
  rw [← hsec, CheckAuth_eq, GenerateSecret_eq, cstr_of_nulFree (base64Chars_nulFree _),
    if_pos rfl]

/-- After an accepted response, the same response is accepted by the next
call exactly when it is also the expected response for the new challenge. -/
theorem CheckAuth_second_iff (self : Config) (r : List Nat) (hS : NulFree self.Secret)
    (hr : NulFree r) (h1 : (CheckAuth self r).ret = true) :
    (CheckAuth (CheckAuth self r).self r).ret = true ↔
      r = base64Chars (sha256 (self.Secret ++ base64Chars (self.rng.next 32))) := by
  rw [CheckAuth_self_of_true self r h1, CheckAuth_eq]
  simp only [cstr_of_nulFree hS, cstr_of_nulFree hr, cstr_of_nulFree (base64Chars_nulFree _)]
  by_cases hc : r = base64Chars (sha256 (self.Secret ++ base64Chars (self.rng.next 32)))
  · rw [if_pos hc]
    exact ⟨fun _ => hc, fun _ => rfl⟩
  · rw [if_neg hc]
    exact ⟨fun h => absurd h (by simp), fun h => absurd h hc⟩

/-- At the object built on a generator that hands out the same 32 bytes
again, the response accepted by `CheckAuth` is accepted a second time by
the call that follows: the new challenge equals the old one. -/
theorem CheckAuth_replay_counterexample :
    ¬ ((CheckAuth zeroConfig (specExpected zeroConfig)).ret = true →
      (CheckAuth (CheckAuth zeroConfig (specExpected zeroConfig)).self
        (specExpected zeroConfig)).ret = false) := by
  have hS : NulFree zeroConfig.Secret := by decide
  have hC : NulFree zeroConfig.SessionChallenge := by decide!
  have h1 : (CheckAuth zeroConfig (specExpected zeroConfig)).ret = true :=
    (CheckAuth_ret_iff zeroConfig _ hS hC (specExpected_nulFree _)).mpr rfl
  have h2 : (CheckAuth (CheckAuth zeroConfig (specExpected zeroConfig)).self
      (specExpected zeroConfig)).ret = true := by
    refine (CheckAuth_second_iff zeroConfig _ hS (specExpected_nulFree _) h1).mpr ?_
    have hch : base64Chars (zeroConfig.rng.next 32) = zeroConfig.SessionChallenge := by decide!
    rw [hch]
    rfl
  intro h
  rw [h h1] at h2
  exact absurd h2 (by decide)

/-- C7 (amended): if `CheckAuth(r)` returns true, then the call
`CheckAuth(r)` that follows returns false, provided the SHA-256 digest of
`Secret` followed by the new challenge (the base64 encoding of the next 32
bytes of the generator) differs from the digest of `Secret` followed by the
old challenge. -/
theorem CheckAuth_replay_rejected (self : Config) (r : List Nat) (hS : NulFree self.Secret)
    (hC : NulFree self.SessionChallenge) (hr : NulFree r)
    (h1 : (CheckAuth self r).ret = true)
    (hfresh : sha256 (self.Secret ++ base64Chars (self.rng.next 32))
      ≠ sha256 (self.Secret ++ self.SessionChallenge)) :
    (CheckAuth (CheckAuth self r).self r).ret = false := by
  have hr1 : r = specExpected self := (CheckAuth_ret_iff self r hS hC hr).mp h1
  cases hb : (CheckAuth (CheckAuth self r).self r).ret with
  | false => rfl
  | true =>
    have h2 := (CheckAuth_second_iff self r hS hr h1).mp hb
    rw [hr1] at h2
    unfold specExpected at h2
    exact absurd (base64Chars_injective (sha256_isBytes _) (sha256_isBytes _) h2).symm hfresh

theorem CheckAuth_replay_rejected_witness :
    (CheckAuth hunter2Config (specExpected hunter2Config)).ret = true ∧
    (CheckAuth (CheckAuth hunter2Config (specExpected hunter2Config)).self
      (specExpected hunter2Config)).ret = false := by
  have h1 := (CheckAuth_ret_iff hunter2Config _ (by decide!) (by decide)
    (specExpected_nulFree hunter2Config)).mpr rfl
  exact ⟨h1, CheckAuth_replay_rejected hunter2Config (specExpected hunter2Config) (by decide!)
    (by decide) (specExpected_nulFree hunter2Config) h1 (by decide!)⟩

/-- C8: `GenerateSalt` draws a block of 32 bytes from the generator and
returns a C string of exactly 44 characters that is valid base64 and
decodes to exactly that block; two calls return the same salt only if the
generator handed out the same 32 bytes; every store of the call, the
terminator at index `salt_bytes` included, is inside its block. -/
theorem GenerateSalt_spec (self : Config) :
    (self.rng.next 32).length = 32 ∧
    (GenerateSalt self).ret = base64Chars (self.rng.next 32) ∧
    (GenerateSalt self).ret.length = 44 ∧
    NulFree (GenerateSalt self).ret ∧
    base64_decode (GenerateSalt self).ret = some (self.rng.next 32) ∧
    (∀ other : Config, (GenerateSalt other).ret = (GenerateSalt self).ret →
      other.rng.next 32 = self.rng.next 32) ∧
    (GenerateSalt self).self.rng.pos = self.rng.pos + 32 ∧
    (GenerateSalt self).inBounds = true := by
  refine ⟨next_length _ _, by rw [GenerateSalt_eq], ?_, ?_, ?_, ?_, by rw [GenerateSalt_eq],
    by rw [GenerateSalt_eq]⟩
  · rw [GenerateSalt_eq]
    simp only [base64Chars_length, next_length]
  · rw [GenerateSalt_eq]
    exact base64Chars_nulFree _
  · rw [GenerateSalt_eq]
    exact base64_decode_encode _ (next_isBytes _ _)
  · intro other h
    rw [GenerateSalt_eq, GenerateSalt_eq] at h
    exact base64Chars_injective (next_isBytes _ _) (next_isBytes _ _) h

/-- A C string that does not have 44 characters is rejected and the object
stays as it was. -/
theorem CheckAuth_malformed (self : Config) (r : List Nat) (hS : NulFree self.Secret)
    (hC : NulFree self.SessionChallenge) (hr : NulFree r) (hlen : r.length ≠ 44) :
    (CheckAuth self r).ret = false ∧ (CheckAuth self r).self = self := by
  have hf : (CheckAuth self r).ret = false := by
    apply CheckAuth_ret_false self r hS hC hr
    intro h
    rw [h, specExpected_length] at hlen
    exact hlen rfl
  exact ⟨hf, CheckAuth_self_of_false self r hf⟩

/-- C9, at the object built on `demoRng` and the empty response:
`CheckAuth` returns false and leaves the object as it was, but not every
store of the call is inside its block: the terminator stored at index
`secretLength + sessChallengeLength` and the one stored at index 64 are
past the end of their blocks. -/
theorem CheckAuth_empty_response_stores :
    (CheckAuth demoConfig []).ret = false ∧
    (CheckAuth demoConfig []).self = demoConfig ∧
    (CheckAuth demoConfig []).inBounds = false := by
  have hf : (CheckAuth demoConfig []).ret = false := by decide!
  exact ⟨hf, CheckAuth_self_of_false _ _ hf, CheckAuth_inBounds _ _⟩

/-- C10: with an empty `Secret`, `CheckAuth` returns true exactly for the
base64 encoding of the SHA-256 digest of the session challenge alone, and
the value returned does not depend on `AuthRequired`. -/
theorem CheckAuth_empty_secret (self : Config) (r : List Nat) (hE : self.Secret = [])
    (hC : NulFree self.SessionChallenge) (hr : NulFree r) :
    ((CheckAuth self r).ret = true ↔ r = base64Chars (sha256 self.SessionChallenge)) ∧
    (∀ b : Bool, (CheckAuth { self with AuthRequired := b } r).ret = (CheckAuth self r).ret) := by
  have hS : NulFree self.Secret := by
    rw [hE]
    intro b hb
    cases hb
  constructor
  · have h := CheckAuth_ret_iff self r hS hC hr
    unfold specExpected at h
    rw [hE, List.nil_append] at h
    exact h
  · intro b
    rw [CheckAuth_eq, CheckAuth_eq]
    by_cases hc : cstr r = base64Chars (sha256 (cstr self.Secret ++ cstr self.SessionChallenge))
    · rw [if_pos hc, if_pos hc]
    · rw [if_neg hc, if_neg hc]

theorem CheckAuth_empty_secret_witness :
    demoConfig.Secret = [] ∧ demoConfig.AuthRequired = false ∧
    ((CheckAuth demoConfig (base64Chars (sha256 demoConfig.SessionChallenge))).ret = true ↔
      base64Chars (sha256 demoConfig.SessionChallenge)
        = base64Chars (sha256 demoConfig.SessionChallenge)) ∧
    (CheckAuth { demoConfig with AuthRequired := true }
      (base64Chars (sha256 demoConfig.SessionChallenge))).ret
      = (CheckAuth demoConfig (base64Chars (sha256 demoConfig.SessionChallenge))).ret :=
  ⟨rfl, rfl,
    (CheckAuth_empty_secret demoConfig _ rfl (by decide!) (base64Chars_nulFree _)).1,
    (CheckAuth_empty_secret demoConfig _ rfl (by decide!) (base64Chars_nulFree _)).2 true⟩

/-! ## Construction, sequences of calls, bounds and frames -/

theorem Config_new_eq (rng : CtrDrbg) :
    Config.new rng =
      ⟨(), { ServerEnabled := true, ServerPort := 4444, AuthRequired := false, Secret := [],
             Salt := [], SessionChallenge := base64Chars (rng.next 32), SettingsLoaded := false,
             rng := { rng with pos := rng.pos + 32 } }, true⟩ := by
  unfold Config.new
  simp only [GenerateSalt_eq]

/-- C11: the object produced by the constructor has `Secret` and `Salt`
empty, `AuthRequired` false, `ServerEnabled` true and `ServerPort` 4444, and
its `SessionChallenge` is already a freshly generated salt: the base64
encoding of the first 32 bytes drawn from the generator it was built on. -/
theorem Config_new_spec (rng : CtrDrbg) :
    (Config.new rng).self.Secret = [] ∧
    (Config.new rng).self.Salt = [] ∧
    (Config.new rng).self.AuthRequired = false ∧
    (Config.new rng).self.ServerEnabled = true ∧
    (Config.new rng).self.ServerPort = 4444 ∧
    (Config.new rng).self.SettingsLoaded = false ∧
    (Config.new rng).self.SessionChallenge = base64Chars (rng.next 32) ∧
    (rng.next 32).length = 32 ∧
    (Config.new rng).self.SessionChallenge.length = 44 ∧
    (Config.new rng).self.rng.pos = rng.pos + 32 ∧
    (Config.new rng).inBounds = true := by
  rw [Config_new_eq]
  refine ⟨rfl, rfl, rfl, rfl, rfl, rfl, rfl, next_length _ _, ?_, rfl, rfl⟩
  simp only [base64Chars_length, next_length]

/-- At a seeding call that reports the failure of the entropy source and
leaves a generator of zero bytes, the constructor still returns an object:
its session challenge is the base64 encoding of 32 zero bytes, and
`CheckAuth` on it accepts the expected response. -/
theorem Config_construct_counterexample :
    (SeedRet.mk MBEDTLS_ERR_CTR_DRBG_ENTROPY_SOURCE_FAILED zeroRng).ret ≠ 0 ∧
    (Config.construct
      (SeedRet.mk MBEDTLS_ERR_CTR_DRBG_ENTROPY_SOURCE_FAILED zeroRng)).self.SessionChallenge
      = base64Chars (List.replicate 32 0) ∧
    (CheckAuth
      (Config.construct (SeedRet.mk MBEDTLS_ERR_CTR_DRBG_ENTROPY_SOURCE_FAILED zeroRng)).self
      (specExpected
        (Config.construct
          (SeedRet.mk MBEDTLS_ERR_CTR_DRBG_ENTROPY_SOURCE_FAILED zeroRng)).self)).ret
      = true := by
  refine ⟨by decide, by decide!, ?_⟩
  exact (CheckAuth_ret_iff _ _ (by decide) (by decide!) (specExpected_nulFree _)).mpr rfl

/-- C12 (amended): whatever return code the seeding call reports, the
constructor completes; the object it returns is the one built on the
generator context the call left, with `Secret` and `Salt` empty and the
session challenge drawn from that context, and it is the same object for
every return code. -/
theorem Config_construct_ignores_seed_code (seed : SeedRet) :
    (Config.construct seed).self.SessionChallenge = base64Chars (seed.rng.next 32) ∧
    (Config.construct seed).self.Secret = [] ∧
    (Config.construct seed).self.Salt = [] ∧
    (Config.construct seed).self.rng.pos = seed.rng.pos + 32 ∧
    (∀ code : Int,
      (Config.construct (SeedRet.mk code seed.rng)).self = (Config.construct seed).self) := by
  have h := Config_new_spec seed.rng
  exact ⟨h.2.2.2.2.2.2.1, h.1, h.2.1, h.2.2.2.2.2.2.2.2.2.1, fun _ => rfl⟩

/-- C13: for C strings `P`, `S1`, `S2` with `S1 ≠ S2`, the byte strings
hashed by `GenerateSecret(P, S1)` and `GenerateSecret(P, S2)` are different,
and the two secrets are equal only if SHA-256 gives these two different
byte strings the same digest; with different digests the secrets differ. -/
theorem GenerateSecret_distinct_salts (P S1 S2 : List Nat) (hP : NulFree P)
    (hS1 : NulFree S1) (hS2 : NulFree S2) (hne : S1 ≠ S2) :
    P ++ S1 ≠ P ++ S2 ∧
    ((GenerateSecret P S1).ret = (GenerateSecret P S2).ret →
      sha256 (P ++ S1) = sha256 (P ++ S2)) ∧
    (sha256 (P ++ S1) ≠ sha256 (P ++ S2) →
      (GenerateSecret P S1).ret ≠ (GenerateSecret P S2).ret) := by
  have hinj : (GenerateSecret P S1).ret = (GenerateSecret P S2).ret →
      sha256 (P ++ S1) = sha256 (P ++ S2) := by
    intro h
    rw [GenerateSecret_eq, GenerateSecret_eq, cstr_of_nulFree hP, cstr_of_nulFree hS1,
      cstr_of_nulFree hS2] at h
    exact base64Chars_injective (sha256_isBytes _) (sha256_isBytes _) h
  exact ⟨fun h => hne (List.append_cancel_left h), hinj, fun hd h => hd (hinj h)⟩

theorem GenerateSecret_distinct_salts_witness :
    saltC2 ≠ chalY2 ∧
    hunter2 ++ saltC2 ≠ hunter2 ++ chalY2 ∧
    (GenerateSecret hunter2 saltC2).ret ≠ (GenerateSecret hunter2 chalY2).ret := by
  have h := GenerateSecret_distinct_salts hunter2 saltC2 chalY2 (by decide) (by decide)
    (by decide) (by decide)
  exact ⟨by decide, h.1, h.2.2 (by decide!)⟩

/-- The pairing looks at `Secret` and `Salt` only. -/
theorem Paired_of_fields (last : Option (List Nat)) (a b : Config)
    (hsec : a.Secret = b.Secret) (hsalt : a.Salt = b.Salt) (h : Paired last b) :
    Paired last a := by
  cases last with
  | none =>
    simp only [Paired] at h ⊢
    rw [hsec, hsalt]
    exact h
  | some P =>
    simp only [Paired] at h ⊢
    rw [hsec, hsalt]
    exact h

theorem Call_run_setPassword (self : Config) (p : List Nat) :
    Call.run self (Call.setPassword p) = (SetPassword self p).self := by
  simp only [Call.run]

theorem Call_run_checkAuth (self : Config) (r : List Nat) :
    Call.run self (Call.checkAuth r) = (CheckAuth self r).self := by
  simp only [Call.run]

/-- One call keeps the pairing: `SetPassword(P)` pairs the new secret with
the new salt, `CheckAuth` touches neither field. -/
theorem Paired_step (last : Option (List Nat)) (self : Config) (c : Call)
    (h : Paired last self) :
    Paired (match c with
      | Call.setPassword p => some p
      | Call.checkAuth _ => last) (Call.run self c) := by
  cases c with
  | setPassword p =>
    simp only [Call_run_setPassword, Paired]
    exact (SetPassword_spec self p).2.2.2.2
  | checkAuth r =>
    have hsec : (CheckAuth self r).self.Secret = self.Secret := by
      rw [CheckAuth_eq]
      split_ifs <;> rfl
    have hsalt : (CheckAuth self r).self.Salt = self.Salt := by
      rw [CheckAuth_eq]
      split_ifs <;> rfl
    simp only [Call_run_checkAuth]
    exact Paired_of_fields last _ _ hsec hsalt h

/-- A sequence of calls keeps the pairing, for the password that is the most
recent one after the sequence. -/
theorem Paired_runCalls (calls : List Call) : ∀ (last : Option (List Nat)) (self : Config),
    Paired last self →
    Paired (match lastPassword calls with
      | some p => some p
      | none => last) (runCalls self calls) := by
  induction calls with
  | nil =>
    intro last self h
    exact h
  | cons c cs ih =>
    intro last self h
    have h1 := ih _ _ (Paired_step last self c h)
    have hrun : runCalls self (c :: cs) = runCalls (Call.run self c) cs := by
      simp only [runCalls, List.foldl_cons]
    rw [hrun]
    cases hl : lastPassword cs with
    | some p =>
      rw [hl] at h1
      simp only [lastPassword, hl]
      exact h1
    | none =>
      rw [hl] at h1
      cases c with
      | setPassword p =>
        simp only [lastPassword, hl]
        exact h1
      | checkAuth r =>
        simp only [lastPassword, hl]
        exact h1

/-- C15: in every state reached from the constructed object by a sequence of
`SetPassword` and `CheckAuth` calls, `Secret` and `Salt` are both empty when
the sequence has no `SetPassword`, and otherwise `Secret` is
`GenerateSecret(P, Salt)` for the current `Salt` and the password `P` of the
most recent `SetPassword`; each call either leaves both fields as they are
(`CheckAuth`) or assigns both (`SetPassword`). -/
theorem Secret_Salt_paired (rng : CtrDrbg) (calls : List Call) :
    Paired (lastPassword calls) (runCalls (Config.new rng).self calls) ∧
    (∀ (self : Config) (r : List Nat),
      (CheckAuth self r).self.Secret = self.Secret ∧
      (CheckAuth self r).self.Salt = self.Salt) ∧
    (∀ (self : Config) (P : List Nat),
      (SetPassword self P).self.Salt = (GenerateSalt self).ret ∧
      (SetPassword self P).self.Secret
        = (GenerateSecret P (SetPassword self P).self.Salt).ret) := by
  refine ⟨?_, ?_, ?_⟩
  · have h0 : Paired none (Config.new rng).self := by
      rw [Config_new_eq]
      exact ⟨rfl, rfl⟩
    have h := Paired_runCalls calls none _ h0
    cases hl : lastPassword calls with
    | some p =>
      rw [hl] at h
      exact h
    | none =>
      rw [hl] at h
      exact h
  · intro self r
    rw [CheckAuth_eq]
    split_ifs <;> exact ⟨rfl, rfl⟩
  · intro self P
    exact ⟨(SetPassword_spec self P).2.2.1, (SetPassword_spec self P).2.2.2.2⟩

/-- `CheckAuth` returns true exactly when `strcmp` finds the response equal
to the block `expected_response`. -/
theorem CheckAuth_ret_strcmp (self : Config) (r : List Nat) :
    (CheckAuth self r).ret = true ↔ strcmp (CheckAuth_expected_response self).bytes r = 0 := by
  unfold CheckAuth CheckAuth_expected_response
  simp only []
  split_ifs with h
  · exact ⟨fun _ => h, fun _ => rfl⟩
  · exact ⟨fun h2 => absurd h2 (by simp), fun h2 => absurd h2 h⟩

/-- The C string in the block `expected_response`. -/
theorem CheckAuth_expected_response_cstr (self : Config) :
    cstr (CheckAuth_expected_response self).bytes
      = base64Chars (sha256 (cstr self.Secret ++ cstr self.SessionChallenge)) := by
  have hd := derive_steps self.Secret self.SessionChallenge
  simp only [] at hd
  unfold CheckAuth_expected_response
  simp only [hd.1, cstr_base64_block]

/-- C16: the string that `CheckAuth` computes inline and compares the
response against is the string `GenerateSecret(Secret, SessionChallenge)`
returns, so for a C string `r`, `CheckAuth(r)` returns true if and only if
`r` is `GenerateSecret(Secret, SessionChallenge)`. -/
theorem CheckAuth_refines_GenerateSecret (self : Config) (r : List Nat) (hr : NulFree r) :
    ((CheckAuth self r).ret = true ↔
      strcmp (CheckAuth_expected_response self).bytes r = 0) ∧
    cstr (CheckAuth_expected_response self).bytes
      = (GenerateSecret self.Secret self.SessionChallenge).ret ∧
    ((CheckAuth self r).ret = true ↔
      r = (GenerateSecret self.Secret self.SessionChallenge).ret) := by
  have h1 := CheckAuth_ret_strcmp self r
  have h2 : cstr (CheckAuth_expected_response self).bytes
      = (GenerateSecret self.Secret self.SessionChallenge).ret := by
    rw [CheckAuth_expected_response_cstr, GenerateSecret_eq]
  refine ⟨h1, h2, ?_⟩
  rw [h1, strcmp_eq_zero_iff, h2, cstr_of_nulFree hr]
  exact ⟨fun h => h.symm, fun h => h.symm⟩

theorem CheckAuth_refines_GenerateSecret_witness :
    NulFree hunter2Secret ∧
    ((CheckAuth hunter2Config hunter2Secret).ret = true ↔
      hunter2Secret
        = (GenerateSecret hunter2Config.Secret hunter2Config.SessionChallenge).ret) ∧
    (CheckAuth hunter2Config hunter2Secret).ret = false :=
  ⟨by decide, (CheckAuth_refines_GenerateSecret hunter2Config hunter2Secret (by decide)).2.2,
    by decide!⟩

/-- C17, at `GenerateSecret("hunter2", "c2FsdA==")` and at `CheckAuth` on the
object with the password `hunter2`: the block for the concatenation has 15
bytes, respectively 52, and the terminator is stored at index 15,
respectively 52; the block for the base64 string has 64 bytes and the
terminator is stored at index 64. These stores are out of range, so not
every store of the two functions is in bounds; those of `GenerateSalt`
are. -/
theorem terminator_stores_out_of_range :
    strlen hunter2 + strlen saltC2 = 15 ∧
    (bzalloc (strlen hunter2 + strlen saltC2)).size = 15 ∧
    ((memcpy (memcpy (bzalloc 15) 0 hunter2 7).1 7 saltC2 8).1.store 15 0).2 = false ∧
    (bzalloc 64).size = 64 ∧
    ((mbedtls_base64_encode (bzalloc 64) 64 (sha256 (hunter2 ++ saltC2)) 32).dst.store 64 0).2
      = false ∧
    (GenerateSecret hunter2 saltC2).inBounds = false ∧
    strlen hunter2Config.Secret + strlen hunter2Config.SessionChallenge = 52 ∧
    (CheckAuth hunter2Config hunter2).inBounds = false ∧
    (GenerateSalt demoConfig).inBounds = true := by
  refine ⟨by decide, by decide, by decide, by decide, by decide!, by decide!, by decide!,
    CheckAuth_inBounds _ _, ?_⟩
  rw [GenerateSalt_eq]

/-- C18: whether it returns true or false, `CheckAuth` leaves `Secret`,
`Salt`, `AuthRequired`, `ServerEnabled` and `ServerPort` (and
`SettingsLoaded`) as they were. -/
theorem CheckAuth_frame (self : Config) (r : List Nat) :
    (CheckAuth self r).self.Secret = self.Secret ∧
    (CheckAuth self r).self.Salt = self.Salt ∧
    (CheckAuth self r).self.AuthRequired = self.AuthRequired ∧
    (CheckAuth self r).self.ServerEnabled = self.ServerEnabled ∧
    (CheckAuth self r).self.ServerPort = self.ServerPort ∧
    (CheckAuth self r).self.SettingsLoaded = self.SettingsLoaded := by
  rw [CheckAuth_eq]
  split_ifs <;> exact ⟨rfl, rfl, rfl, rfl, rfl, rfl⟩

/-- C19: `SetPassword` leaves `SessionChallenge`, `AuthRequired`,
`ServerEnabled` and `ServerPort` (and `SettingsLoaded`) as they were: it
does not turn `AuthRequired` on and does not rotate the challenge. -/
theorem SetPassword_frame (self : Config) (P : List Nat) :
    (SetPassword self P).self.SessionChallenge = self.SessionChallenge ∧
    (SetPassword self P).self.AuthRequired = self.AuthRequired ∧
    (SetPassword self P).self.ServerEnabled = self.ServerEnabled ∧
    (SetPassword self P).self.ServerPort = self.ServerPort ∧
    (SetPassword self P).self.SettingsLoaded = self.SettingsLoaded := by
  rw [SetPassword_eq]
  exact ⟨rfl, rfl, rfl, rfl, rfl⟩

end ObsWebsocket
